import Mathlib

/-!
Verification development for the pgimportdoc import pipeline
(source: pgimportdoc.c).

The import pipeline of the `pgimportdoc` function is shallowly embedded:
the connector with its password-retry loop, the encoding setter, the
input loader with its pre-flight size check and chunked read loop, the
parameter binder and the executor/reporter, together with the
command-line processing of `main`.  External effects (libpq, the file
system, the terminal prompt) are modelled by a `World` record holding
the responses the environment gives, and the observable behaviour of a
run is a return code together with a trace of events.  Diagnostic
strings are abbreviated renderings of the printf format strings of the
source; each distinct error site additionally carries its own `ErrKind`
tag so that error classes can be told apart independently of the text.
-/

/-- Mirrors `enum trivalue` (TRI_DEFAULT, TRI_NO, TRI_YES). -/
inductive Trivalue where
  | default : Trivalue
  | no : Trivalue
  | yes : Trivalue
deriving DecidableEq

/-- Mirrors `enum format` (FORMAT_XML, FORMAT_TEXT, FORMAT_BYTEA). -/
inductive Format where
  | xml : Format
  | text : Format
  | bytea : Format
deriving DecidableEq

/-- Mirrors `struct _param` (progname dropped; it only feeds messages). -/
structure Param where
  pg_user : Option String
  pg_prompt : Trivalue
  pg_port : Option String
  pg_host : Option String
  verbose : Bool
  fmt : Format
  command : Option String
  use_stdin : Bool
  filename : String
  encoding : Option String
deriving DecidableEq

/-- Wire-format flag of one bound parameter: `pformats[0] = 1` is
binary, a NULL formats array means text. -/
inductive Wire where
  | binary : Wire
  | text : Wire
deriving DecidableEq

/-- Parameter type tag, mirroring the OIDs used at the call sites
(`XMLOID`, `BYTEAOID`). -/
inductive PType where
  | xmloid : PType
  | byteaoid : PType
deriving DecidableEq

/-- One bound parameter as passed to `PQexecParams`: type tag
(`ptypes[0]`, `none` models a NULL types array), declared length
(`plengths[0]`, `none` models a NULL lengths array), wire-format flag
and raw value bytes. -/
structure BoundParam where
  ptype : Option PType
  plength : Option Nat
  wire : Wire
  pvalue : List Nat
deriving DecidableEq

/-- Result statuses distinguished by the source: `PGRES_COMMAND_OK`,
`PGRES_TUPLES_OK`, and everything else. -/
inductive ExecStatus where
  | commandOk : ExecStatus
  | tuplesOk : ExecStatus
  | otherError : ExecStatus
deriving DecidableEq

/-- Outcome of one `PQconnectdbParams` call: whether the handle is NULL,
whether `PQstatus` is `CONNECTION_BAD`, and whether
`PQconnectionNeedsPassword` holds. -/
structure ConnAttempt where
  isNull : Bool
  bad : Bool
  needsPassword : Bool
deriving DecidableEq

/-- What `fstat` reports about the opened input file: `S_ISREG` and
`st_size`. -/
structure FileStat where
  isRegular : Bool
  size : Nat
deriving DecidableEq

/-- The main execution result: `PQresultStatus`, `PQntuples`,
`PQnfields` and the cell `PQgetvalue(result, 0, 0)` (`none` models a
NULL cell as reported by `PQgetisnull`). -/
structure PGresultData where
  status : ExecStatus
  ntuples : Nat
  nfields : Nat
  val00 : Option String
deriving DecidableEq

/-- Environment responses for one run: connection outcomes with and
without a password, the prompted password, the status and error text of
the `SET client_encoding` command, file-system responses, the readable
byte stream, read-error and out-of-memory flags, and the result of the
main `PQexecParams` call. -/
structure World where
  connNoPass : ConnAttempt
  connWithPass : ConnAttempt
  promptResult : String
  setencStatus : ExecStatus
  setencErrorMsg : String
  fileOpenOk : Bool
  fstatOk : Bool
  fileStat : FileStat
  stream : List Nat
  readError : Bool
  oom : Bool
  mainResult : PGresultData
  mainErrorMsg : String
deriving DecidableEq

/-- The `static bool have_password` / `static char password[100]` pair
that survives across calls of `pgimportdoc` within one process. -/
structure PwState where
  have_password : Bool
  password : String
deriving DecidableEq

/-- Tags identifying the individual error-report sites of the source. -/
inductive ErrKind where
  | connFail : ErrKind
  | connBad : ErrKind
  | unexpectedStatus : ErrKind
  | serverError : ErrKind
  | openFail : ErrKind
  | tooBig : ErrKind
  | fstatFail : ErrKind
  | readFail : ErrKind
  | oom : ErrKind
deriving DecidableEq

/-- Observable events of a run: password prompt, a connection attempt
(flags: password supplied, returned handle non-NULL), closing the
connection (`PQfinish`), a plain command (`PQexec`), the parameterized
execution (`PQexecParams`), a non-fatal warning on stderr, the single
data line on stdout, and an error report on stderr. -/
inductive Event where
  | prompt : Event
  | connect : Bool → Bool → Event
  | finish : Event
  | execCommand : String → Event
  | execParams : String → BoundParam → Event
  | warn : String → Event
  | printOut : String → Event
  | errMsg : ErrKind → String → Event
deriving DecidableEq

def connFailMsg (db : String) : String :=
  "Connection to database " ++ db ++ " failed"

def connBadMsg (db : String) : String :=
  "Connection to database " ++ db ++ " failed: "

def unexpectedStatusMsg : String := "Unexpected result status"

def errorPrefix : String := "Error: "

def openFailMsg (f : String) : String := "Unable to open " ++ f

def fstatFailMsg : String := "fstat failed"

def readFailMsg (f : String) : String := "Cannot read data " ++ f

def oomMsg : String := "Out of memory"

def tooBigMsg (f : String) : String := f ++ " is too big (greather than 1GB)"

def onlyFirstWarn : String :=
  "pgimportdoc: warning: only first column of first row is displayed"

def encIgnoredWarn : String :=
  "pgimportdoc: warning: encoding is used only for type TEXT"

def helpHint : String := "Try pgimportdoc --help for more information."

def missingCommandMsg : String :=
  "pgimportdoc: missing required argument: -c COMMAND"

def missingDatabaseMsg : String :=
  "pgimportdoc: missing required argument: database name"

def invalidTypeMsg : String :=
  "pgimportdoc: only XML, TEXT or BYTEA types are supported"

def invalidPortMsg (s : String) : String :=
  "pgimportdoc: invalid port number: " ++ s

/-- BUFSIZE of the source: the `fread` chunk size. -/
def BUFSIZE : Nat := 1024

/-- The 1 GiB limit of the pre-flight size check:
`((int64) 1024) * 1024 * 1024`. -/
def gigabyte : Nat := 1024 * 1024 * 1024

/-- One step of the read loop per recursive call: `fread` yields up to
`BUFSIZE` bytes which `appendBinaryPQExpBuffer` appends; the loop stops
at end of stream.  Fuel-indexed so the recursion is structural;
`readAll` supplies enough fuel for the whole stream. -/
def readChunks : Nat → List Nat → List Nat → List Nat
  | 0, _, acc => acc
  | _ + 1, [], acc => acc
  | fuel + 1, x :: xs, acc =>
      readChunks fuel ((x :: xs).drop BUFSIZE) (acc ++ (x :: xs).take BUFSIZE)

/-- The complete read loop
`while ((size = fread(...)) > 0) appendBinaryPQExpBuffer(...)`. -/
def readAll (s : List Nat) : List Nat := readChunks (s.length + 1) s []

/-- Which connection outcome an attempt sees, depending on whether the
`password` keyword is supplied (`have_password ? password : NULL`). -/
def attemptResult (w : World) (havePw : Bool) : ConnAttempt :=
  if havePw then w.connWithPass else w.connNoPass

/-- The connector: the optional TRI_YES pre-prompt, the
`do ... while (new_pass)` connection loop with its single password
retry, and the final `CONNECTION_BAD` check.  Returns whether a healthy
connection was obtained, the password state after the call, and the
emitted events. -/
def connector (db : String) (param : Param) (w : World) (st0 : PwState) :
    Bool × PwState × List Event :=
  let pp := param.pg_prompt = Trivalue.yes ∧ st0.have_password = false
  let st1 : PwState := if pp then ⟨true, w.promptResult⟩ else st0
  let ev0 : List Event := if pp then [Event.prompt] else []
  let a1 := attemptResult w st1.have_password
  let e1 := Event.connect st1.have_password (!a1.isNull)
  if a1.isNull then
    (false, st1, ev0 ++ [e1, Event.errMsg ErrKind.connFail (connFailMsg db)])
  else if a1.bad ∧ a1.needsPassword ∧ st1.have_password = false ∧
      param.pg_prompt ≠ Trivalue.no then
    let st2 : PwState := ⟨true, w.promptResult⟩
    let a2 := w.connWithPass
    let e2 := Event.connect true (!a2.isNull)
    if a2.isNull then
      (false, st2, ev0 ++ [e1, Event.finish, Event.prompt, e2,
                           Event.errMsg ErrKind.connFail (connFailMsg db)])
    else if a2.bad then
      (false, st2, ev0 ++ [e1, Event.finish, Event.prompt, e2,
                           Event.errMsg ErrKind.connBad (connBadMsg db),
                           Event.finish])
    else
      (true, st2, ev0 ++ [e1, Event.finish, Event.prompt, e2])
  else if a1.bad then
    (false, st1, ev0 ++ [e1, Event.errMsg ErrKind.connBad (connBadMsg db),
                         Event.finish])
  else
    (true, st1, ev0 ++ [e1])

/-- The encoding setter: when `param->encoding` is set (for any format),
issue `SET client_encoding TO <enc>` via `PQexec`; any status other than
`PGRES_COMMAND_OK` is terminal (`PQfinish`, return -1). -/
def encodingSetter (param : Param) (w : World) : Bool × List Event :=
  match param.encoding with
  | none => (true, [])
  | some enc =>
      let ev := Event.execCommand ("SET client_encoding TO " ++ enc)
      if w.setencStatus = ExecStatus.commandOk then
        (true, [ev])
      else
        (false, [ev, Event.errMsg ErrKind.unexpectedStatus unexpectedStatusMsg,
                 Event.errMsg ErrKind.serverError
                   (errorPrefix ++ w.setencErrorMsg),
                 Event.finish])

/-- Opening the input source: stdin is used directly; a named file is
opened, `fstat`-ed, and a regular file larger than 1 GiB is rejected
before reading. -/
def openCheck (param : Param) (w : World) : Bool × List Event :=
  if param.use_stdin then
    (true, [])
  else if w.fileOpenOk = false then
    (false, [Event.errMsg ErrKind.openFail (openFailMsg param.filename),
             Event.finish])
  else if w.fstatOk then
    if w.fileStat.isRegular ∧ w.fileStat.size > gigabyte then
      (false, [Event.errMsg ErrKind.tooBig (tooBigMsg param.filename),
               Event.finish])
    else
      (true, [])
  else
    (false, [Event.errMsg ErrKind.fstatFail fstatFailMsg, Event.finish])

/-- The buffered read: the chunked `fread` loop, then the `ferror` check
and the `PQExpBufferDataBroken` (out of memory) check, both terminal. -/
def loader (param : Param) (w : World) :
    Option (List Nat) × List Event :=
  let data := readAll w.stream
  if w.readError then
    (none, [Event.errMsg ErrKind.readFail (readFailMsg param.filename),
            Event.finish])
  else if w.oom then
    (none, [Event.errMsg ErrKind.oom oomMsg, Event.finish])
  else
    (some data, [])

/-- The parameter binder: XML and BYTEA bind one typed binary parameter
whose declared length is the buffer length; TEXT passes NULL types,
lengths and formats arrays (text wire format, server-inferred type). -/
def bindParam (fmt : Format) (data : List Nat) : BoundParam :=
  match fmt with
  | Format.xml => ⟨some PType.xmloid, some data.length, Wire.binary, data⟩
  | Format.bytea => ⟨some PType.byteaoid, some data.length, Wire.binary, data⟩
  | Format.text => ⟨none, none, Wire.text, data⟩

/-- The reporter: on `PGRES_TUPLES_OK`, warn when more than one row or
column came back, and print the first cell of the first row when a row
exists and the cell is not NULL. -/
def reportResult (r : PGresultData) : List Event :=
  if r.status = ExecStatus.tuplesOk then
    (if r.ntuples > 1 ∨ r.nfields > 1 then [Event.warn onlyFirstWarn] else [])
      ++
    (if r.ntuples > 0 then
       match r.val00 with
       | some v => [Event.printOut v]
       | none => []
     else [])
  else []

/-- The executor: bind the parameter, run `PQexecParams`, treat any
status other than `PGRES_TUPLES_OK` / `PGRES_COMMAND_OK` as terminal,
otherwise report; every branch ends in `PQfinish`. -/
def executor (param : Param) (w : World) (data : List Nat) :
    Int × List Event :=
  let ev := Event.execParams (param.command.getD "") (bindParam param.fmt data)
  if w.mainResult.status = ExecStatus.tuplesOk ∨
      w.mainResult.status = ExecStatus.commandOk then
    (0, ev :: (reportResult w.mainResult ++ [Event.finish]))
  else
    (-1, [ev, Event.errMsg ErrKind.unexpectedStatus unexpectedStatusMsg,
          Event.errMsg ErrKind.serverError (errorPrefix ++ w.mainErrorMsg),
          Event.finish])

/-- Result of one `pgimportdoc` call: return code, event trace, and the
password state left behind for a later call. -/
structure PipeOut where
  rc : Int
  trace : List Event
  pw : PwState
deriving DecidableEq

/-- The import pipeline `pgimportdoc(database, param)`: connector,
encoding setter, open/size check, buffered read, bind/execute/report,
sequenced exactly as in the source with each stage's early returns. -/
def pgimportdoc (db : String) (param : Param) (w : World) (st0 : PwState) :
    PipeOut :=
  match connector db param w st0 with
  | (false, st, evs) => ⟨-1, evs, st⟩
  | (true, st, evs) =>
      match encodingSetter param w with
      | (false, evs2) => ⟨-1, evs ++ evs2, st⟩
      | (true, evs2) =>
          match openCheck param w with
          | (false, evs3) => ⟨-1, evs ++ evs2 ++ evs3, st⟩
          | (true, evs3) =>
              match loader param w with
              | (none, evs4) => ⟨-1, evs ++ evs2 ++ evs3 ++ evs4, st⟩
              | (some data, evs4) =>
                  let r := executor param w data
                  ⟨r.1, evs ++ evs2 ++ evs3 ++ evs4 ++ r.2, st⟩

/-- Command-line tokens as `getopt` hands them to the option loop. -/
inductive Arg where
  | unknownOpt : Arg
  | optVerbose : Arg
  | optCommand : String → Arg
  | optFile : String → Arg
  | optType : String → Arg
  | optEncoding : String → Arg
  | optUser : String → Arg
  | optNoPassword : Arg
  | optForcePassword : Arg
  | optPort : String → Arg
  | optHost : String → Arg
  | positional : String → Arg
deriving DecidableEq

/-- Default `param` values as set at the top of `main`. -/
def defaultParam : Param :=
  { pg_user := none, pg_prompt := Trivalue.default, pg_port := none,
    pg_host := none, verbose := false, fmt := Format.text, command := none,
    use_stdin := true, filename := "", encoding := none }

/-- Digit-accumulation part of `strtol(s, NULL, 10)`. -/
def digitsVal : List Char → Int → Int
  | [], acc => acc
  | c :: rest, acc =>
      if c.isDigit then digitsVal rest (acc * 10 + (c.toNat - 48)) else acc

/-- Out-of-range results of `strtol` saturate to LONG_MIN/LONG_MAX
(64-bit `long`, the usual LP64 platform). -/
def clampLong (n : Int) : Int :=
  if n < -(2 ^ 63) then -(2 ^ 63)
  else if n > 2 ^ 63 - 1 then 2 ^ 63 - 1
  else n

/-- The assignment `port = strtol(optarg, NULL, 10)` stores the `long`
result in the `int` variable `port`, truncating it to a signed 32-bit
value: e.g. 4294967297 becomes 1 and passes the range check. -/
def wrapInt32 (n : Int) : Int := (n + 2 ^ 31) % 2 ^ 32 - 2 ^ 31

/-- Model of `strtol(s, NULL, 10)`: skip spaces, optional sign, leading
digits (no digits yields 0), saturated to the long range. -/
def strtol10 (s : String) : Int :=
  clampLong
    (match s.data.dropWhile (fun c => c == ' ') with
     | '-' :: rest => - digitsVal rest 0
     | '+' :: rest => digitsVal rest 0
     | cs => digitsVal cs 0)

/-- The `getopt` option loop of `main`: processes options in order until
the first positional argument, building up `param`; an unknown option,
an invalid `-t` keyword or a `-p` port whose int-truncated value falls
outside 1..65535 exits immediately (modelled as an error carrying the
stderr lines). -/
def scanOpts : List Arg → Param → Except (List String) (Param × List Arg)
  | [], p => Except.ok (p, [])
  | a :: rest, p =>
      match a with
      | Arg.positional s => Except.ok (p, Arg.positional s :: rest)
      | Arg.unknownOpt => Except.error [helpHint]
      | Arg.optVerbose => scanOpts rest { p with verbose := true }
      | Arg.optCommand s => scanOpts rest { p with command := some s }
      | Arg.optFile s =>
          if s = "-" then scanOpts rest p
          else scanOpts rest { p with filename := s, use_stdin := false }
      | Arg.optType s =>
          if s = "XML" then scanOpts rest { p with fmt := Format.xml }
          else if s = "TEXT" then scanOpts rest { p with fmt := Format.text }
          else if s = "BYTEA" then scanOpts rest { p with fmt := Format.bytea }
          else Except.error [invalidTypeMsg]
      | Arg.optEncoding s => scanOpts rest { p with encoding := some s }
      | Arg.optUser s => scanOpts rest { p with pg_user := some s }
      | Arg.optNoPassword => scanOpts rest { p with pg_prompt := Trivalue.no }
      | Arg.optForcePassword =>
          scanOpts rest { p with pg_prompt := Trivalue.yes }
      | Arg.optPort s =>
          if wrapInt32 (strtol10 s) < 1 ∨ wrapInt32 (strtol10 s) > 65535 then
            Except.error [invalidPortMsg s]
          else scanOpts rest { p with pg_port := some s }
      | Arg.optHost s => scanOpts rest { p with pg_host := some s }

/-- Configuration handed from `main` to `pgimportdoc`. -/
structure MainConfig where
  param : Param
  database : String
deriving DecidableEq

/-- Argument processing of `main` after the option loop: a missing
`-c` command and a missing database name (`optind + 1 != argc`) are
reported with the usage hint and exit the process. -/
def processArgs (args : List Arg) : Except (List String) MainConfig :=
  match scanOpts args defaultParam with
  | Except.error msgs => Except.error msgs
  | Except.ok (p, rest) =>
      match p.command with
      | none => Except.error [missingCommandMsg, helpHint]
      | some _ =>
          match rest with
          | [Arg.positional db] => Except.ok ⟨p, db⟩
          | _ => Except.error [missingDatabaseMsg, helpHint]

/-- Result of one whole `main` run: exit code, pipeline event trace,
stderr lines of configuration errors, and the final password state. -/
structure RunOut where
  rc : Int
  trace : List Event
  cfgErrs : List String
  pw : PwState
deriving DecidableEq

/-- The whole of `main` after defaults: process the arguments (any
configuration error exits with code 1 before anything else happens),
emit the non-fatal warning when an encoding is combined with a
non-TEXT format, then run the pipeline. -/
def mainRun (args : List Arg) (w : World) (st0 : PwState) : RunOut :=
  match processArgs args with
  | Except.error msgs => ⟨1, [], msgs, st0⟩
  | Except.ok cfg =>
      let wtr : List Event :=
        if cfg.param.encoding ≠ none ∧ cfg.param.fmt ≠ Format.text then
          [Event.warn encIgnoredWarn]
        else []
      let out := pgimportdoc cfg.database cfg.param w st0
      ⟨out.rc, wtr ++ out.trace, [], out.pw⟩

/-- Event classifiers used by the statements below. -/
def isPromptEv : Event → Bool
  | Event.prompt => true
  | _ => false

def isConnectEv : Event → Bool
  | Event.connect _ _ => true
  | _ => false

def isOpenConn : Event → Bool
  | Event.connect _ ok => ok
  | _ => false

def isFinishEv : Event → Bool
  | Event.finish => true
  | _ => false

def isExecParamsEv : Event → Bool
  | Event.execParams _ _ => true
  | _ => false

def isExecCommandEv : Event → Bool
  | Event.execCommand _ => true
  | _ => false

def isTooBigEv : Event → Bool
  | Event.errMsg ErrKind.tooBig _ => true
  | _ => false

/-- Number of successfully returned (non-NULL) connection handles in a
trace. -/
def connOpens (l : List Event) : Nat := l.countP isOpenConn

/-- Number of `PQfinish` calls in a trace. -/
def connCloses (l : List Event) : Nat := l.countP isFinishEv

/-- A fully cooperative environment: connections succeed, the file is a
small regular file, three bytes arrive on the stream, the main command
succeeds without rows. -/
def okWorld : World :=
  { connNoPass := ⟨false, false, false⟩, connWithPass := ⟨false, false, false⟩,
    promptResult := "pw", setencStatus := ExecStatus.commandOk,
    setencErrorMsg := "enc err", fileOpenOk := true, fstatOk := true,
    fileStat := ⟨true, 10⟩, stream := [1, 2, 3], readError := false,
    oom := false, mainResult := ⟨ExecStatus.commandOk, 0, 0, none⟩,
    mainErrorMsg := "main err" }

/-- Defaults plus a command, as `main` would hand over. -/
def baseParam : Param := { defaultParam with command := some "INSERT" }

/-- Fresh password state of a new process. -/
def pw0 : PwState := ⟨false, ""⟩

/-- Environment whose first (password-less) connection attempt reports
CONNECTION_BAD with a password request. -/
def retryWorld : World := { okWorld with connNoPass := ⟨false, true, true⟩ }

/-- Environment that rejects the SET client_encoding command. -/
def encFailWorld : World := { okWorld with setencStatus := ExecStatus.otherError }

/-- Named-file variant of `baseParam`. -/
def fileParam : Param :=
  { baseParam with use_stdin := false, filename := "doc.xml" }

/-- Environment whose input file is a regular file of exactly 1 GiB. -/
def gigWorld : World := { okWorld with fileStat := ⟨true, gigabyte⟩ }

/-- Environment whose input file is one byte over 1 GiB. -/
def gig1World : World := { okWorld with fileStat := ⟨true, gigabyte + 1⟩ }

/-- Environment whose named input is not a regular file (say a FIFO)
and reports a huge size. -/
def fifoWorld : World := { okWorld with fileStat := ⟨false, gigabyte + 5⟩ }

/-- XML import over stdin. -/
def xmlParam : Param := { baseParam with fmt := Format.xml }

/-- XML import with an encoding override, as `-c I -t XML -E UTF8 db`. -/
def c4args : List Arg :=
  [Arg.optCommand "INSERT", Arg.optType "XML", Arg.optEncoding "UTF8",
   Arg.positional "db"]

/-- The parameter record `processArgs c4args` builds. -/
def c4param : Param :=
  { defaultParam with
      command := some "INSERT"
      fmt := Format.xml
      encoding := some "UTF8" }

/-- The configuration `processArgs c4args` produces. -/
def c4cfg : MainConfig := ⟨c4param, "db"⟩

/-- TEXT import with an encoding override. -/
def c6param : Param :=
  { baseParam with fmt := Format.text, encoding := some "UTF8" }

/-- Invocation with an invalid `-t` keyword. -/
def c8args : List Arg :=
  [Arg.optType "JSON", Arg.optCommand "INSERT", Arg.positional "db"]

/-- The parameter the fully cooperative XML run binds. -/
def c1bp : BoundParam := ⟨some PType.xmloid, some 3, Wire.binary, [1, 2, 3]⟩

/-- The chunked read loop returns exactly the stream once the fuel
covers the stream length. -/
theorem readChunks_eq :
    ∀ (fuel : Nat) (s acc : List Nat), s.length < fuel →
      readChunks fuel s acc = acc ++ s := by
  intro fuel
  induction fuel with
  | zero => intro s acc h; exact absurd h (Nat.not_lt_zero _)
  | succ n ih =>
      intro s acc h
      cases s with
      | nil => simp [readChunks]
      | cons x xs =>
          have hlt : ((x :: xs).drop BUFSIZE).length < n := by
            have hb : 0 < BUFSIZE := by norm_num [BUFSIZE]
            simp only [List.length_drop, List.length_cons] at h ⊢
            omega
          simp only [readChunks]
          rw [ih _ _ hlt, List.append_assoc, List.take_append_drop]

/-- The read loop is the identity on the byte stream. -/
theorem readAll_eq (s : List Nat) : readAll s = s := by
  have h := readChunks_eq (s.length + 1) s [] (Nat.lt_succ_self _)
  simpa [readAll] using h

/-- Without a read error or allocation failure the loader returns the
whole stream and no events. -/
theorem loader_success (param : Param) (w : World)
    (h1 : w.readError = false) (h2 : w.oom = false) :
    loader param w = (some w.stream, []) := by
  simp [loader, h1, h2, readAll_eq]

/-- A successful loader result is exactly the stream. -/
theorem loader_some (param : Param) (w : World) (d : List Nat)
    (evs : List Event) (h : loader param w = (some d, evs)) :
    d = w.stream ∧ evs = [] := by
  unfold loader at h
  split_ifs at h with h1 h2
  · simp at h
  · simp at h
  · simp only [Prod.mk.injEq, Option.some.injEq] at h
    exact ⟨h.1.symm.trans (readAll_eq w.stream), h.2.symm⟩

/-- C2: for every input byte sequence of length at most 1 GiB − 1
supplied via a file or standard input, reading it in BUFSIZE chunks
appended to the growable buffer until end of stream yields a
DocumentBuffer with exactly the input's length and content. -/
theorem C2_input_roundtrip (param : Param) (w : World)
    (h1 : w.readError = false) (h2 : w.oom = false)
    (h3 : w.stream.length ≤ gigabyte - 1) :
    (loader param w).1 = some w.stream ∧
      readAll w.stream = w.stream ∧
      (readAll w.stream).length = w.stream.length := by
  refine ⟨?_, readAll_eq w.stream, by rw [readAll_eq]⟩
  rw [loader_success param w h1 h2]

/-- C2 witness: the three-byte stream of the cooperative environment is
loaded unchanged. -/
theorem C2_input_roundtrip_witness :
    okWorld.readError = false ∧ okWorld.oom = false ∧
      okWorld.stream.length ≤ gigabyte - 1 ∧
      (loader baseParam okWorld).1 = some okWorld.stream := by
  refine ⟨rfl, rfl, by decide, ?_⟩
  exact (C2_input_roundtrip baseParam okWorld rfl rfl (by decide)).1

/-- An execParams event in a trace makes its execParams count positive. -/
theorem mem_execParams_countP (c : String) (bp : BoundParam)
    (l : List Event) (h : Event.execParams c bp ∈ l) :
    0 < l.countP isExecParamsEv :=
  List.countP_pos_iff.mpr ⟨_, h, rfl⟩

/-- Event counts of the reporter: it prints and warns only. -/
theorem reportResult_counts (r : PGresultData) :
    (reportResult r).countP isExecParamsEv = 0 ∧
    (reportResult r).countP isPromptEv = 0 ∧
    (reportResult r).countP isConnectEv = 0 ∧
    connOpens (reportResult r) = 0 ∧
    connCloses (reportResult r) = 0 ∧
    (reportResult r).countP isTooBigEv = 0 := by
  rcases r with ⟨st, nt, nf, v⟩
  unfold reportResult
  cases v <;> split_ifs <;>
    simp [connOpens, connCloses, isExecParamsEv, isPromptEv, isConnectEv,
          isOpenConn, isFinishEv, isTooBigEv]

/-- Event counts of the encoding setter. -/
theorem encodingSetter_counts (param : Param) (w : World) :
    (encodingSetter param w).2.countP isExecParamsEv = 0 ∧
    (encodingSetter param w).2.countP isPromptEv = 0 ∧
    (encodingSetter param w).2.countP isConnectEv = 0 ∧
    connOpens (encodingSetter param w).2 = 0 ∧
    connCloses (encodingSetter param w).2 =
      (if (encodingSetter param w).1 then 0 else 1) ∧
    (encodingSetter param w).2.countP isTooBigEv = 0 := by
  unfold encodingSetter
  cases param.encoding with
  | none =>
      simp [connOpens, connCloses]
  | some enc =>
      by_cases h : w.setencStatus = ExecStatus.commandOk <;>
        simp [h, connOpens, connCloses, isExecParamsEv, isPromptEv,
              isConnectEv, isOpenConn, isFinishEv, isTooBigEv]

/-- Event counts of the open/size check. -/
theorem openCheck_counts (param : Param) (w : World) :
    (openCheck param w).2.countP isExecParamsEv = 0 ∧
    (openCheck param w).2.countP isPromptEv = 0 ∧
    (openCheck param w).2.countP isConnectEv = 0 ∧
    connOpens (openCheck param w).2 = 0 ∧
    connCloses (openCheck param w).2 =
      (if (openCheck param w).1 then 0 else 1) := by
  unfold openCheck
  split_ifs <;>
    simp_all [connOpens, connCloses, isExecParamsEv, isPromptEv, isConnectEv,
              isOpenConn, isFinishEv]

/-- The open/size check raises the oversized error exactly when a named
input opened and fstat-ed fine, is a regular file, and strictly exceeds
1 GiB. -/
theorem openCheck_tooBig (param : Param) (w : World) :
    (openCheck param w).2.countP isTooBigEv =
      (if param.use_stdin = false ∧ w.fileOpenOk = true ∧ w.fstatOk = true ∧
          w.fileStat.isRegular = true ∧ gigabyte < w.fileStat.size
       then 1 else 0) := by
  unfold openCheck
  split_ifs with h1 h2 h3 h4 <;>
    simp_all [isTooBigEv, isExecParamsEv, isFinishEv]

/-- Event counts of the loader. -/
theorem loader_counts (param : Param) (w : World) :
    (loader param w).2.countP isExecParamsEv = 0 ∧
    (loader param w).2.countP isPromptEv = 0 ∧
    (loader param w).2.countP isConnectEv = 0 ∧
    connOpens (loader param w).2 = 0 ∧
    connCloses (loader param w).2 =
      (if (loader param w).1.isSome then 0 else 1) ∧
    (loader param w).2.countP isTooBigEv = 0 := by
  unfold loader
  split_ifs <;>
    simp_all [connOpens, connCloses, isExecParamsEv, isPromptEv, isConnectEv,
              isOpenConn, isFinishEv, isTooBigEv]

/-- Event counts of the executor: no prompts or connection attempts, one
PQfinish on every branch, never an oversized error. -/
theorem executor_counts (param : Param) (w : World) (data : List Nat) :
    (executor param w data).2.countP isPromptEv = 0 ∧
    (executor param w data).2.countP isConnectEv = 0 ∧
    connOpens (executor param w data).2 = 0 ∧
    connCloses (executor param w data).2 = 1 ∧
    (executor param w data).2.countP isTooBigEv = 0 := by
  unfold executor reportResult
  rcases hw : w.mainResult with ⟨st, nt, nf, v⟩
  cases v <;> split_ifs <;>
    simp_all [connOpens, connCloses, isExecParamsEv, isPromptEv, isConnectEv,
              isOpenConn, isFinishEv, isTooBigEv, List.countP_append]

/-- Any execParams event the executor emits carries the configured
command and the parameter bound from the given buffer. -/
theorem executor_mem (param : Param) (w : World) (data : List Nat)
    (c : String) (bp : BoundParam)
    (h : Event.execParams c bp ∈ (executor param w data).2) :
    c = param.command.getD "" ∧ bp = bindParam param.fmt data := by
  obtain ⟨r1, _, _, _, _, _⟩ := reportResult_counts w.mainResult
  unfold executor at h
  split_ifs at h
  · rcases List.mem_cons.mp h with h | h
    · injection h with h1 h2; exact ⟨h1, h2⟩
    · rcases List.mem_append.mp h with h | h
      · exact absurd (mem_execParams_countP c bp _ h) (by omega)
      · simp at h
  · rcases List.mem_cons.mp h with h | h
    · injection h with h1 h2; exact ⟨h1, h2⟩
    · simp at h

/-- Bulk event counts of the connector: it never executes commands,
prompts at most once, attempts at most two connections, and leaves
exactly one connection open when (and only when) it succeeds. -/
theorem connector_counts (db : String) (param : Param) (w : World)
    (st0 : PwState) :
    (connector db param w st0).2.2.countP isExecParamsEv = 0 ∧
    (connector db param w st0).2.2.countP isExecCommandEv = 0 ∧
    (connector db param w st0).2.2.countP isTooBigEv = 0 ∧
    connOpens (connector db param w st0).2.2 =
      connCloses (connector db param w st0).2.2 +
        (if (connector db param w st0).1 then 1 else 0) ∧
    (connector db param w st0).2.2.countP isPromptEv ≤ 1 ∧
    (connector db param w st0).2.2.countP isConnectEv ≤ 2 := by
  unfold connector attemptResult
  by_cases hpp : param.pg_prompt = Trivalue.yes ∧ st0.have_password = false <;>
    simp [hpp, connOpens, connCloses] <;>
    split_ifs <;>
    simp_all [isExecParamsEv, isExecCommandEv, isTooBigEv, isPromptEv,
              isConnectEv, isOpenConn, isFinishEv]

/-- Default policy, no password yet, first attempt demands a password:
exactly one prompt and exactly two connection attempts. -/
theorem connector_default_retry (db : String) (param : Param) (w : World)
    (st0 : PwState) (hp : param.pg_prompt = Trivalue.default)
    (h0 : st0.have_password = false) (hn : w.connNoPass.isNull = false)
    (hb : w.connNoPass.bad = true) (hr : w.connNoPass.needsPassword = true) :
    (connector db param w st0).2.2.countP isPromptEv = 1 ∧
    (connector db param w st0).2.2.countP isConnectEv = 2 := by
  unfold connector attemptResult
  simp [hp, h0, hn, hb, hr]
  split_ifs <;> simp_all [isPromptEv, isConnectEv]

/-- Never-prompt policy: no prompt, a single connection attempt, and a
NULL handle or CONNECTION_BAD status is terminal. -/
theorem connector_never (db : String) (param : Param) (w : World)
    (st0 : PwState) (hp : param.pg_prompt = Trivalue.no) :
    (connector db param w st0).2.2.countP isPromptEv = 0 ∧
    (connector db param w st0).2.2.countP isConnectEv = 1 ∧
    (((attemptResult w st0.have_password).isNull = true ∨
      (attemptResult w st0.have_password).bad = true) →
      (connector db param w st0).1 = false) := by
  unfold connector attemptResult
  simp [hp]
  split_ifs <;> simp_all [isPromptEv, isConnectEv]

/-- A password already on hand is reused: the connector never prompts
again. -/
theorem connector_cached (db : String) (param : Param) (w : World)
    (st0 : PwState) (h0 : st0.have_password = true) :
    (connector db param w st0).2.2.countP isPromptEv = 0 := by
  unfold connector attemptResult
  simp [h0]
  split_ifs <;> simp_all [isPromptEv]

/-- Once a prompt happened, the password state records the password for
the remainder of the process. -/
theorem connector_pwout (db : String) (param : Param) (w : World)
    (st0 : PwState)
    (h : 0 < (connector db param w st0).2.2.countP isPromptEv) :
    (connector db param w st0).2.1.have_password = true := by
  unfold connector attemptResult at h ⊢
  by_cases hpp : param.pg_prompt = Trivalue.yes ∧ st0.have_password = false <;>
    simp [hpp] at h ⊢ <;>
    split_ifs at h ⊢ <;> simp_all [isPromptEv]

/-- The pipeline trace is the connector trace followed by a tail with no
prompt or connection events; the password state is the connector's, and
a failed connector ends the pipeline at once. -/
theorem pgimportdoc_trace_decomp (db : String) (param : Param) (w : World)
    (st0 : PwState) :
    ∃ tail,
      (pgimportdoc db param w st0).trace =
        (connector db param w st0).2.2 ++ tail ∧
      tail.countP isPromptEv = 0 ∧ tail.countP isConnectEv = 0 ∧
      (pgimportdoc db param w st0).pw = (connector db param w st0).2.1 ∧
      ((connector db param w st0).1 = false →
        tail = [] ∧ (pgimportdoc db param w st0).rc = -1) := by
  obtain ⟨e1, e2p, e3, e4, e5, e6⟩ := encodingSetter_counts param w
  obtain ⟨o1, o2, o3, o4, o5⟩ := openCheck_counts param w
  obtain ⟨l1, l2p, l3, l4, l5, l6⟩ := loader_counts param w
  unfold pgimportdoc
  rcases hc : connector db param w st0 with ⟨ok, stc, evs⟩
  cases ok with
  | false =>
      exact ⟨[], by simp, rfl, rfl, rfl, fun _ => ⟨rfl, rfl⟩⟩
  | true =>
      rcases h2 : encodingSetter param w with ⟨b2, evs2⟩
      rw [h2] at e1 e2p e3
      dsimp only at e1 e2p e3
      cases b2 with
      | false =>
          exact ⟨evs2, rfl, e2p, e3, rfl, fun h => by simp at h⟩
      | true =>
          rcases h3 : openCheck param w with ⟨b3, evs3⟩
          rw [h3] at o1 o2 o3
          dsimp only at o1 o2 o3
          cases b3 with
          | false =>
              refine ⟨evs2 ++ evs3, by simp, ?_, ?_, rfl,
                fun h => by simp at h⟩ <;>
                simp [List.countP_append, e2p, e3, o2, o3]
          | true =>
              rcases h4 : loader param w with ⟨od, evs4⟩
              rw [h4] at l1 l2p l3
              dsimp only at l1 l2p l3
              cases od with
              | none =>
                  refine ⟨evs2 ++ evs3 ++ evs4, by simp, ?_, ?_, rfl,
                    fun h => by simp at h⟩ <;>
                  simp [List.countP_append, e2p, e3, o2, o3, l2p, l3]
              | some data =>
                  obtain ⟨x1, x2, x3, x4, x5⟩ := executor_counts param w data
                  refine ⟨evs2 ++ evs3 ++ evs4 ++ (executor param w data).2,
                    by simp, ?_, ?_, rfl, fun h => by simp at h⟩ <;>
                  simp [List.countP_append, e2p, e3, o2, o3, l2p, l3, x1, x2]

/-- Open-handle counts distribute over trace concatenation. -/
theorem connOpens_append (l1 l2 : List Event) :
    connOpens (l1 ++ l2) = connOpens l1 + connOpens l2 := by
  simp [connOpens, List.countP_append]

/-- PQfinish counts distribute over trace concatenation. -/
theorem connCloses_append (l1 l2 : List Event) :
    connCloses (l1 ++ l2) = connCloses l1 + connCloses l2 := by
  simp [connCloses, List.countP_append]

/-- C9: on every exit path of the import pipeline after a connection
has been established — success and every early-return error path — the
connection is closed before the pipeline returns: every trace balances
its successfully returned connection handles with PQfinish calls. -/
theorem C9_connection_released (db : String) (param : Param) (w : World)
    (st0 : PwState) :
    connOpens (pgimportdoc db param w st0).trace =
      connCloses (pgimportdoc db param w st0).trace := by
  obtain ⟨_, _, _, c4, _, _⟩ := connector_counts db param w st0
  obtain ⟨_, _, _, e4, e5, _⟩ := encodingSetter_counts param w
  obtain ⟨_, _, _, o4, o5⟩ := openCheck_counts param w
  obtain ⟨_, _, _, l4, l5, _⟩ := loader_counts param w
  unfold pgimportdoc
  rcases hc : connector db param w st0 with ⟨ok, stc, evs⟩
  rw [hc] at c4
  dsimp only at c4
  cases ok with
  | false => simpa using c4
  | true =>
      simp only [if_pos trivial] at c4
      rcases h2 : encodingSetter param w with ⟨b2, evs2⟩
      rw [h2] at e4 e5
      dsimp only at e4 e5
      cases b2 with
      | false =>
          simp only [Bool.false_eq_true, if_false] at e5
          dsimp only
          rw [connOpens_append, connCloses_append]
          omega
      | true =>
          simp only [if_pos trivial] at e5
          rcases h3 : openCheck param w with ⟨b3, evs3⟩
          rw [h3] at o4 o5
          dsimp only at o4 o5
          cases b3 with
          | false =>
              simp only [Bool.false_eq_true, if_false] at o5
              dsimp only
              rw [connOpens_append, connOpens_append,
                  connCloses_append, connCloses_append]
              omega
          | true =>
              simp only [if_pos trivial] at o5
              rcases h4 : loader param w with ⟨od, evs4⟩
              rw [h4] at l4 l5
              dsimp only at l4 l5
              cases od with
              | none =>
                  simp only [Option.isSome_none, Bool.false_eq_true,
                             if_false] at l5
                  dsimp only
                  rw [connOpens_append, connOpens_append, connOpens_append,
                      connCloses_append, connCloses_append, connCloses_append]
                  omega
              | some data =>
                  simp only [Option.isSome_some, if_pos trivial] at l5
                  obtain ⟨_, _, x3, x4, _⟩ := executor_counts param w data
                  dsimp only
                  rw [connOpens_append, connOpens_append, connOpens_append,
                      connOpens_append, connCloses_append, connCloses_append,
                      connCloses_append, connCloses_append]
                  omega

/-- C5: default policy prompts once and retries exactly once more when
the first attempt demands a password; never-prompt forbids both prompt
and retry and a bad attempt is terminal; a password on hand is never
requested again and a prompted password is kept for the rest of the
run; no run ever prompts more than once or attempts more than two
connections. -/
theorem C5_password_policy (db : String) (param : Param) (w : World)
    (st0 : PwState) :
    ((pgimportdoc db param w st0).trace.countP isPromptEv ≤ 1 ∧
     (pgimportdoc db param w st0).trace.countP isConnectEv ≤ 2) ∧
    (param.pg_prompt = Trivalue.default → st0.have_password = false →
      w.connNoPass.isNull = false → w.connNoPass.bad = true →
      w.connNoPass.needsPassword = true →
      (pgimportdoc db param w st0).trace.countP isPromptEv = 1 ∧
      (pgimportdoc db param w st0).trace.countP isConnectEv = 2) ∧
    (param.pg_prompt = Trivalue.no →
      (pgimportdoc db param w st0).trace.countP isPromptEv = 0 ∧
      (pgimportdoc db param w st0).trace.countP isConnectEv = 1 ∧
      (((attemptResult w st0.have_password).isNull = true ∨
        (attemptResult w st0.have_password).bad = true) →
        (pgimportdoc db param w st0).rc = -1)) ∧
    (st0.have_password = true →
      (pgimportdoc db param w st0).trace.countP isPromptEv = 0) ∧
    (0 < (pgimportdoc db param w st0).trace.countP isPromptEv →
      (pgimportdoc db param w st0).pw.have_password = true) := by
  obtain ⟨tail, htr, hpt, hct, hpw, hfail⟩ :=
    pgimportdoc_trace_decomp db param w st0
  have hP : (pgimportdoc db param w st0).trace.countP isPromptEv =
      (connector db param w st0).2.2.countP isPromptEv := by
    simp [htr, List.countP_append, hpt]
  have hC : (pgimportdoc db param w st0).trace.countP isConnectEv =
      (connector db param w st0).2.2.countP isConnectEv := by
    simp [htr, List.countP_append, hct]
  obtain ⟨_, _, _, _, c5, c6⟩ := connector_counts db param w st0
  refine ⟨⟨by rw [hP]; exact c5, by rw [hC]; exact c6⟩, ?_, ?_, ?_, ?_⟩
  · intro hp h0 hn hb hr
    obtain ⟨d1, d2⟩ := connector_default_retry db param w st0 hp h0 hn hb hr
    exact ⟨by rw [hP, d1], by rw [hC, d2]⟩
  · intro hp
    obtain ⟨n1, n2, n3⟩ := connector_never db param w st0 hp
    exact ⟨by rw [hP, n1], by rw [hC, n2],
      fun hcond => (hfail (n3 hcond)).2⟩
  · intro h0
    rw [hP, connector_cached db param w st0 h0]
  · intro h
    rw [hP] at h
    rw [hpw]
    exact connector_pwout db param w st0 h

/-- C5 witness: the cooperative retry scenario under the default policy
prompts once and attempts exactly two connections. -/
theorem C5_password_policy_witness :
    (pgimportdoc "db" baseParam retryWorld pw0).trace.countP isPromptEv = 1 ∧
    (pgimportdoc "db" baseParam retryWorld pw0).trace.countP isConnectEv = 2 :=
  (C5_password_policy "db" baseParam retryWorld pw0).2.1 rfl rfl rfl rfl rfl

/-- C1: every parameter the pipeline binds obeys the format mapping:
XML yields the xml type tag, binary wire format, the raw buffer and a
declared length equal to the buffer length; BYTEA likewise with the
bytea type tag; TEXT yields no type tag, no declared length, text wire
format and the raw buffer. -/
theorem C1_binder_mapping (db : String) (param : Param) (w : World)
    (st0 : PwState) (c : String) (bp : BoundParam)
    (h : Event.execParams c bp ∈ (pgimportdoc db param w st0).trace) :
    (param.fmt = Format.xml →
      bp = ⟨some PType.xmloid, some w.stream.length, Wire.binary, w.stream⟩) ∧
    (param.fmt = Format.bytea →
      bp = ⟨some PType.byteaoid, some w.stream.length, Wire.binary,
            w.stream⟩) ∧
    (param.fmt = Format.text →
      bp.ptype = none ∧ bp.plength = none ∧ bp.wire = Wire.text ∧
        bp.pvalue = w.stream) := by
  obtain ⟨cc, _, _, _, _, _⟩ := connector_counts db param w st0
  obtain ⟨ee, _, _, _, _, _⟩ := encodingSetter_counts param w
  obtain ⟨oo, _, _, _, _⟩ := openCheck_counts param w
  obtain ⟨ll, _, _, _, _, _⟩ := loader_counts param w
  suffices hbp : bp = bindParam param.fmt w.stream by
    refine ⟨fun hf => ?_, fun hf => ?_, fun hf => ?_⟩ <;>
      rw [hbp, hf] <;> simp [bindParam]
  unfold pgimportdoc at h
  rcases hc : connector db param w st0 with ⟨ok, stc, evs⟩
  rw [hc] at h cc
  dsimp only at cc
  cases ok with
  | false =>
      replace h : Event.execParams c bp ∈ evs := h
      exact absurd (mem_execParams_countP _ _ _ h) (by omega)
  | true =>
      rcases h2 : encodingSetter param w with ⟨b2, evs2⟩
      rw [h2] at h ee
      dsimp only at ee
      cases b2 with
      | false =>
          replace h : Event.execParams c bp ∈ evs ++ evs2 := h
          exact absurd (mem_execParams_countP _ _ _ h)
            (by simp [List.countP_append, cc, ee])
      | true =>
          rcases h3 : openCheck param w with ⟨b3, evs3⟩
          rw [h3] at h oo
          dsimp only at oo
          cases b3 with
          | false =>
              replace h : Event.execParams c bp ∈ evs ++ evs2 ++ evs3 := h
              exact absurd (mem_execParams_countP _ _ _ h)
                (by simp [List.countP_append, cc, ee, oo])
          | true =>
              rcases h4 : loader param w with ⟨od, evs4⟩
              rw [h4] at h ll
              dsimp only at ll
              cases od with
              | none =>
                  replace h :
                      Event.execParams c bp ∈ evs ++ evs2 ++ evs3 ++ evs4 := h
                  exact absurd (mem_execParams_countP _ _ _ h)
                    (by simp [List.countP_append, cc, ee, oo, ll])
              | some data =>
                  replace h : Event.execParams c bp ∈
                      evs ++ evs2 ++ evs3 ++ evs4 ++
                        (executor param w data).2 := h
                  rcases List.mem_append.mp h with h | h
                  · exact absurd (mem_execParams_countP _ _ _ h)
                      (by simp [List.countP_append, cc, ee, oo, ll])
                  · obtain ⟨_, hbp⟩ := executor_mem param w data c bp h
                    obtain ⟨hd, _⟩ := loader_some param w data evs4 h4
                    rw [hbp, hd]

/-- C1 witness: the cooperative XML run binds exactly the xml-tagged
binary parameter carrying the three-byte stream. -/
theorem C1_binder_mapping_witness :
    c1bp.ptype = some PType.xmloid ∧ c1bp.wire = Wire.binary ∧
    c1bp.plength = some okWorld.stream.length ∧
    c1bp.pvalue = okWorld.stream := by
  have h := (C1_binder_mapping "db" xmlParam okWorld pw0 "INSERT" c1bp
    (by decide)).1 rfl
  rw [h]
  exact ⟨rfl, rfl, rfl, rfl⟩

/-- The executor always emits the bound-parameter execution event. -/
theorem executor_head_mem (param : Param) (w : World) (data : List Nat) :
    Event.execParams (param.command.getD "") (bindParam param.fmt data) ∈
      (executor param w data).2 := by
  unfold executor
  split_ifs <;> simp

/-- With an encoding override and a healthy connection: the encoding
command is issued before any parameterized execution; its rejection is
terminal with no main execution, the server text surfaced and the
connection closed; its acceptance lets a stdin run proceed to the main
execution. -/
theorem pipeline_encoding (db : String) (param : Param) (w : World)
    (st0 : PwState) (e : String)
    (henc : param.encoding = some e)
    (hconn : (connector db param w st0).1 = true) :
    (∃ l1 l2, (pgimportdoc db param w st0).trace =
        l1 ++ Event.execCommand ("SET client_encoding TO " ++ e) :: l2 ∧
      l1.countP isExecParamsEv = 0) ∧
    Event.execCommand ("SET client_encoding TO " ++ e) ∈
      (pgimportdoc db param w st0).trace ∧
    (w.setencStatus ≠ ExecStatus.commandOk →
      (pgimportdoc db param w st0).rc = -1 ∧
      (pgimportdoc db param w st0).trace.countP isExecParamsEv = 0 ∧
      Event.errMsg ErrKind.serverError (errorPrefix ++ w.setencErrorMsg) ∈
        (pgimportdoc db param w st0).trace ∧
      connOpens (pgimportdoc db param w st0).trace =
        connCloses (pgimportdoc db param w st0).trace) ∧
    (w.setencStatus = ExecStatus.commandOk → param.use_stdin = true →
      w.readError = false → w.oom = false →
      Event.execParams (param.command.getD "")
        (bindParam param.fmt w.stream) ∈
        (pgimportdoc db param w st0).trace) := by
  obtain ⟨cc1, _, _, cc4, _, _⟩ := connector_counts db param w st0
  unfold pgimportdoc
  rcases hc : connector db param w st0 with ⟨ok, stc, evs⟩
  rw [hc] at hconn cc1 cc4
  dsimp only at hconn cc1 cc4
  subst hconn
  simp only [if_true] at cc4
  by_cases hst : w.setencStatus = ExecStatus.commandOk
  · have hES : encodingSetter param w =
        (true, [Event.execCommand ("SET client_encoding TO " ++ e)]) := by
      simp [encodingSetter, henc, hst]
    rw [hES]
    refine ⟨?_, ?_, fun hne => absurd hst hne, ?_⟩
    · rcases h3 : openCheck param w with ⟨b3, evs3⟩
      cases b3 with
      | false => exact ⟨evs, evs3, by simp, cc1⟩
      | true =>
          rcases h4 : loader param w with ⟨od, evs4⟩
          cases od with
          | none => exact ⟨evs, evs3 ++ evs4, by simp, cc1⟩
          | some data =>
              exact ⟨evs, evs3 ++ evs4 ++ (executor param w data).2,
                by simp, cc1⟩
    · rcases h3 : openCheck param w with ⟨b3, evs3⟩
      cases b3 with
      | false => simp
      | true =>
          rcases h4 : loader param w with ⟨od, evs4⟩
          cases od with
          | none => simp
          | some data => simp
    · intro _ hstdin hre hoom
      have hoc : openCheck param w = (true, []) := by
        simp [openCheck, hstdin]
      have hld : loader param w = (some w.stream, []) :=
        loader_success param w hre hoom
      rw [hoc, hld]
      have hm := executor_head_mem param w w.stream
      show Event.execParams (param.command.getD "")
          (bindParam param.fmt w.stream) ∈
        evs ++ [Event.execCommand ("SET client_encoding TO " ++ e)] ++ [] ++
          [] ++ (executor param w w.stream).2
      exact List.mem_append_right _ hm
  · have hES : encodingSetter param w =
        (false,
         [Event.execCommand ("SET client_encoding TO " ++ e),
          Event.errMsg ErrKind.unexpectedStatus unexpectedStatusMsg,
          Event.errMsg ErrKind.serverError (errorPrefix ++ w.setencErrorMsg),
          Event.finish]) := by
      simp [encodingSetter, henc, hst]
    rw [hES]
    refine ⟨⟨evs,
      [Event.errMsg ErrKind.unexpectedStatus unexpectedStatusMsg,
       Event.errMsg ErrKind.serverError (errorPrefix ++ w.setencErrorMsg),
       Event.finish], by simp, cc1⟩, by simp, fun _ => ⟨rfl, ?_, by simp, ?_⟩,
      fun hok => absurd hok hst⟩
    · show (evs ++
        [Event.execCommand ("SET client_encoding TO " ++ e),
         Event.errMsg ErrKind.unexpectedStatus unexpectedStatusMsg,
         Event.errMsg ErrKind.serverError (errorPrefix ++ w.setencErrorMsg),
         Event.finish]).countP isExecParamsEv = 0
      simp [List.countP_append, cc1, isExecParamsEv]
    · show connOpens (evs ++
        [Event.execCommand ("SET client_encoding TO " ++ e),
         Event.errMsg ErrKind.unexpectedStatus unexpectedStatusMsg,
         Event.errMsg ErrKind.serverError (errorPrefix ++ w.setencErrorMsg),
         Event.finish]) = connCloses (evs ++
        [Event.execCommand ("SET client_encoding TO " ++ e),
         Event.errMsg ErrKind.unexpectedStatus unexpectedStatusMsg,
         Event.errMsg ErrKind.serverError (errorPrefix ++ w.setencErrorMsg),
         Event.finish])
      rw [connOpens_append, connCloses_append]
      have ho : connOpens
          [Event.execCommand ("SET client_encoding TO " ++ e),
           Event.errMsg ErrKind.unexpectedStatus unexpectedStatusMsg,
           Event.errMsg ErrKind.serverError (errorPrefix ++ w.setencErrorMsg),
           Event.finish] = 0 := by
        simp [connOpens, isOpenConn]
      have hcl : connCloses
          [Event.execCommand ("SET client_encoding TO " ++ e),
           Event.errMsg ErrKind.unexpectedStatus unexpectedStatusMsg,
           Event.errMsg ErrKind.serverError (errorPrefix ++ w.setencErrorMsg),
           Event.finish] = 1 := by
        simp [connCloses, isFinishEv]
      omega

/-- C6: for a run with format TEXT and a configured encoding override,
the set-client-encoding command is issued before the main execution
command, and if the server rejects it the main command never runs: the
run ends with a negative result, the connection closed, and the server
error text surfaced. -/
theorem C6_encoding_ordering (db : String) (param : Param) (w : World)
    (st0 : PwState) (e : String)
    (hfmt : param.fmt = Format.text)
    (henc : param.encoding = some e)
    (hconn : (connector db param w st0).1 = true) :
    (∃ l1 l2, (pgimportdoc db param w st0).trace =
        l1 ++ Event.execCommand ("SET client_encoding TO " ++ e) :: l2 ∧
      l1.countP isExecParamsEv = 0) ∧
    (w.setencStatus ≠ ExecStatus.commandOk →
      (pgimportdoc db param w st0).rc = -1 ∧
      (pgimportdoc db param w st0).trace.countP isExecParamsEv = 0 ∧
      Event.errMsg ErrKind.serverError (errorPrefix ++ w.setencErrorMsg) ∈
        (pgimportdoc db param w st0).trace ∧
      connOpens (pgimportdoc db param w st0).trace =
        connCloses (pgimportdoc db param w st0).trace) := by
  obtain ⟨h1, _, h3, _⟩ := pipeline_encoding db param w st0 e henc hconn
  exact ⟨h1, h3⟩

/-- C6 witness: the TEXT run with encoding UTF8 against the rejecting
server issues the encoding command first and ends with -1. -/
theorem C6_encoding_ordering_witness :
    (∃ l1 l2, (pgimportdoc "db" c6param encFailWorld pw0).trace =
        l1 ++ Event.execCommand ("SET client_encoding TO " ++ "UTF8") :: l2 ∧
      l1.countP isExecParamsEv = 0) ∧
    (pgimportdoc "db" c6param encFailWorld pw0).rc = -1 := by
  have h := C6_encoding_ordering "db" c6param encFailWorld pw0 "UTF8"
    rfl rfl (by decide)
  exact ⟨h.1, (h.2 (by decide)).1⟩

/-- C3 (amended): for a regular input file that opens and stats fine,
the pre-flight check rejects with the oversized terminal error if and
only if the file size strictly exceeds 1 GiB — so a file of exactly
1 GiB, and a fortiori one byte below, is not rejected — and a rejected
run ends with a negative result before any execution. -/
theorem C3_size_check (db : String) (param : Param) (w : World)
    (st0 : PwState)
    (hstdin : param.use_stdin = false)
    (hopen : w.fileOpenOk = true) (hstat : w.fstatOk = true)
    (hreg : w.fileStat.isRegular = true)
    (hconn : (connector db param w st0).1 = true)
    (henc : (encodingSetter param w).1 = true) :
    ((0 < (pgimportdoc db param w st0).trace.countP isTooBigEv) ↔
      gigabyte < w.fileStat.size) ∧
    (gigabyte < w.fileStat.size →
      (pgimportdoc db param w st0).rc = -1 ∧
      (pgimportdoc db param w st0).trace.countP isExecParamsEv = 0) := by
  obtain ⟨cc1, _, cc3, _, _, _⟩ := connector_counts db param w st0
  obtain ⟨ee1, _, _, _, _, ee6⟩ := encodingSetter_counts param w
  unfold pgimportdoc
  rcases hc : connector db param w st0 with ⟨ok, stc, evs⟩
  rw [hc] at hconn cc1 cc3
  dsimp only at hconn cc1 cc3
  subst hconn
  rcases h2 : encodingSetter param w with ⟨b2, evs2⟩
  rw [h2] at henc ee1 ee6
  dsimp only at henc ee1 ee6
  subst henc
  by_cases hsz : gigabyte < w.fileStat.size
  · have hoc : openCheck param w =
        (false, [Event.errMsg ErrKind.tooBig (tooBigMsg param.filename),
                 Event.finish]) := by
      simp [openCheck, hstdin, hopen, hstat, hreg, hsz]
    rw [hoc]
    refine ⟨⟨fun _ => hsz, fun _ => ?_⟩, fun _ => ⟨rfl, ?_⟩⟩
    · show 0 < (evs ++ evs2 ++
        [Event.errMsg ErrKind.tooBig (tooBigMsg param.filename),
         Event.finish]).countP isTooBigEv
      simp [List.countP_append, isTooBigEv]
    · show (evs ++ evs2 ++
        [Event.errMsg ErrKind.tooBig (tooBigMsg param.filename),
         Event.finish]).countP isExecParamsEv = 0
      simp [List.countP_append, cc1, ee1, isExecParamsEv]
  · have hoc : openCheck param w = (true, []) := by
      simp [openCheck, hstdin, hopen, hstat, hsz]
    rw [hoc]
    rcases h4 : loader param w with ⟨od, evs4⟩
    obtain ⟨ll1, _, _, _, _, ll6⟩ := loader_counts param w
    rw [h4] at ll1 ll6
    dsimp only at ll1 ll6
    cases od with
    | none =>
        refine ⟨⟨fun hpos => ?_, fun hs => absurd hs hsz⟩,
          fun hs => absurd hs hsz⟩
        replace hpos : 0 < (evs ++ evs2 ++ [] ++ evs4).countP isTooBigEv :=
          hpos
        rw [List.countP_append, List.countP_append, List.countP_append,
            cc3, ee6, ll6] at hpos
        simp at hpos
    | some data =>
        obtain ⟨_, _, _, _, xx5⟩ := executor_counts param w data
        refine ⟨⟨fun hpos => ?_, fun hs => absurd hs hsz⟩,
          fun hs => absurd hs hsz⟩
        replace hpos : 0 < (evs ++ evs2 ++ [] ++ evs4 ++
            (executor param w data).2).countP isTooBigEv := hpos
        rw [List.countP_append, List.countP_append, List.countP_append,
            List.countP_append, cc3, ee6, ll6, xx5] at hpos
        simp at hpos

/-- C3 counterexample: a regular file of exactly 1 GiB is at the
claimed "at or above 1 GiB" threshold, yet the run is not rejected: it
succeeds with no oversized error. -/
theorem C3_size_check_counterexample :
    gigWorld.fileStat.size = gigabyte ∧
    gigWorld.fileStat.isRegular = true ∧
    (pgimportdoc "db" fileParam gigWorld pw0).rc = 0 ∧
    (pgimportdoc "db" fileParam gigWorld pw0).trace.countP isTooBigEv = 0 := by
  decide

/-- C3 witness: one byte over 1 GiB is rejected with a negative
result. -/
theorem C3_size_check_witness :
    (0 < (pgimportdoc "db" fileParam gig1World pw0).trace.countP
      isTooBigEv) ∧
    (pgimportdoc "db" fileParam gig1World pw0).rc = -1 := by
  have h := C3_size_check "db" fileParam gig1World pw0 rfl rfl rfl rfl
    (by decide) (by decide)
  have hsz : gigabyte < gig1World.fileStat.size := by decide
  exact ⟨h.1.mpr hsz, (h.2 hsz).1⟩

/-- C7: on a row-returning success a warning is emitted exactly when
more than one row or more than one column came back; the first cell of
the first row is printed exactly when a row exists and the cell is not
NULL; a command-only success produces no output at all. -/
theorem C7_result_reporting (r : PGresultData) :
    (r.status = ExecStatus.tuplesOk →
      (((∃ m, Event.warn m ∈ reportResult r) ↔
          (1 < r.ntuples ∨ 1 < r.nfields)) ∧
       ((∃ v, Event.printOut v ∈ reportResult r ∧ r.val00 = some v) ↔
          (0 < r.ntuples ∧ r.val00 ≠ none)))) ∧
    (r.status = ExecStatus.commandOk → reportResult r = []) := by
  rcases r with ⟨st, nt, nf, v⟩
  constructor
  · rintro rfl
    unfold reportResult
    cases v <;> split_ifs <;> simp_all <;> omega
  · rintro rfl
    simp [reportResult]

/-- C7 witness: a two-row one-column result with a non-null first cell
warns and prints that cell. -/
theorem C7_result_reporting_witness :
    (∃ m, Event.warn m ∈
      reportResult ⟨ExecStatus.tuplesOk, 2, 1, some "x"⟩) ∧
    (∃ v, Event.printOut v ∈
        reportResult ⟨ExecStatus.tuplesOk, 2, 1, some "x"⟩ ∧
      (⟨ExecStatus.tuplesOk, 2, 1, some "x"⟩ : PGresultData).val00 =
        some v) := by
  have h := (C7_result_reporting ⟨ExecStatus.tuplesOk, 2, 1, some "x"⟩).1 rfl
  exact ⟨h.1.mpr (by decide), h.2.mpr (by decide)⟩

/-- C10: the oversized error can only strike a named regular file:
standard input, and a named non-regular file (FIFO, device), bypass the
cap entirely and the whole stream — whatever its length — is buffered
and bound. -/
theorem C10_no_cap_for_streams (db : String) (param : Param) (w : World)
    (st0 : PwState)
    (hconn : (connector db param w st0).1 = true)
    (henc : (encodingSetter param w).1 = true)
    (hre : w.readError = false) (hoom : w.oom = false)
    (hsrc : param.use_stdin = true ∨
      (w.fileOpenOk = true ∧ w.fstatOk = true ∧
        w.fileStat.isRegular = false)) :
    (pgimportdoc db param w st0).trace.countP isTooBigEv = 0 ∧
    Event.execParams (param.command.getD "") (bindParam param.fmt w.stream) ∈
      (pgimportdoc db param w st0).trace := by
  obtain ⟨cc1, _, cc3, _, _, _⟩ := connector_counts db param w st0
  obtain ⟨_, _, _, _, _, ee6⟩ := encodingSetter_counts param w
  have hoc : openCheck param w = (true, []) := by
    rcases hsrc with hstdin | ⟨ho, hf, hr⟩
    · simp [openCheck, hstdin]
    · simp [openCheck, ho, hf, hr]
  have hld : loader param w = (some w.stream, []) :=
    loader_success param w hre hoom
  obtain ⟨_, _, _, _, xx5⟩ := executor_counts param w w.stream
  unfold pgimportdoc
  rcases hc : connector db param w st0 with ⟨ok, stc, evs⟩
  rw [hc] at hconn cc1 cc3
  dsimp only at hconn cc1 cc3
  subst hconn
  rcases h2 : encodingSetter param w with ⟨b2, evs2⟩
  rw [h2] at henc ee6
  dsimp only at henc ee6
  subst henc
  rw [hoc, hld]
  constructor
  · show (evs ++ evs2 ++ [] ++ [] ++
      (executor param w w.stream).2).countP isTooBigEv = 0
    rw [List.countP_append, List.countP_append, List.countP_append,
        List.countP_append, cc3, ee6, xx5]
    simp
  · show Event.execParams (param.command.getD "")
        (bindParam param.fmt w.stream) ∈
      evs ++ evs2 ++ [] ++ [] ++ (executor param w w.stream).2
    exact List.mem_append_right _ (executor_head_mem param w w.stream)

/-- C10 witness: a named FIFO whose stat reports well over 1 GiB is
nevertheless read and bound whole. -/
theorem C10_no_cap_for_streams_witness :
    (pgimportdoc "db" fileParam fifoWorld pw0).trace.countP isTooBigEv = 0 ∧
    Event.execParams "INSERT" (bindParam Format.text fifoWorld.stream) ∈
      (pgimportdoc "db" fileParam fifoWorld pw0).trace := by
  have h := C10_no_cap_for_streams "db" fileParam fifoWorld pw0
    (by decide) (by decide) rfl rfl (Or.inr ⟨rfl, rfl, rfl⟩)
  exact ⟨h.1, h.2⟩

/-- C4 (amended): when an encoding override is configured with a
non-TEXT format, main emits the non-fatal warning before running the
pipeline, but the override is not ignored: the set-client-encoding
command is still issued once a connection stands, a server rejection of
it aborts the run with a negative result and no main execution, and
only when the server accepts it does a (stdin, error-free) import
proceed to the main execution. -/
theorem C4_encoding_warning (args : List Arg) (w : World) (st0 : PwState)
    (cfg : MainConfig) (e : String)
    (hp : processArgs args = Except.ok cfg)
    (henc : cfg.param.encoding = some e)
    (hfmt : cfg.param.fmt ≠ Format.text) :
    Event.warn encIgnoredWarn ∈ (mainRun args w st0).trace ∧
    ((connector cfg.database cfg.param w st0).1 = true →
      Event.execCommand ("SET client_encoding TO " ++ e) ∈
        (mainRun args w st0).trace ∧
      (w.setencStatus ≠ ExecStatus.commandOk →
        (mainRun args w st0).rc = -1 ∧
        (mainRun args w st0).trace.countP isExecParamsEv = 0) ∧
      (w.setencStatus = ExecStatus.commandOk → cfg.param.use_stdin = true →
        w.readError = false → w.oom = false →
        Event.execParams (cfg.param.command.getD "")
          (bindParam cfg.param.fmt w.stream) ∈ (mainRun args w st0).trace)) := by
  have hmr : mainRun args w st0 =
      ⟨(pgimportdoc cfg.database cfg.param w st0).rc,
       Event.warn encIgnoredWarn ::
         (pgimportdoc cfg.database cfg.param w st0).trace,
       [], (pgimportdoc cfg.database cfg.param w st0).pw⟩ := by
    simp [mainRun, hp, henc, hfmt]
  rw [hmr]
  refine ⟨by simp, fun hconn => ?_⟩
  obtain ⟨_, hcmd, hfail, hok⟩ :=
    pipeline_encoding cfg.database cfg.param w st0 e henc hconn
  refine ⟨by simp [hcmd], fun hne => ?_, fun hst hstdin hre hoom => ?_⟩
  · obtain ⟨hrc, hcount, _, _⟩ := hfail hne
    exact ⟨hrc, by simp [hcount, isExecParamsEv]⟩
  · simp [hok hst hstdin hre hoom]

/-- C4 counterexample: with `-c INSERT -t XML -E UTF8 db` and a server
that rejects the encoding command, the warning is emitted and the
encoding command is issued (once — it is not ignored), yet the run
aborts with -1 and the main command never executes, contradicting "the
encoding override is ignored and the import still proceeds". -/
theorem C4_encoding_warning_counterexample :
    (mainRun c4args encFailWorld pw0).rc = -1 ∧
    (mainRun c4args encFailWorld pw0).trace.countP isExecParamsEv = 0 ∧
    Event.warn encIgnoredWarn ∈ (mainRun c4args encFailWorld pw0).trace ∧
    (mainRun c4args encFailWorld pw0).trace.countP isExecCommandEv = 1 := by
  decide

/-- C4 witness: in the rejecting-server scenario the warning appears
and the run ends with -1. -/
theorem C4_encoding_warning_witness :
    Event.warn encIgnoredWarn ∈ (mainRun c4args encFailWorld pw0).trace ∧
    (mainRun c4args encFailWorld pw0).rc = -1 := by
  have h := C4_encoding_warning c4args encFailWorld pw0 c4cfg "UTF8"
    rfl rfl (by decide)
  exact ⟨h.1, ((h.2 (by decide)).2.1 (by decide)).1⟩

/-- The usage-hint line is never the invalid-port message, whatever the
offending port string: their first characters already differ. -/
theorem helpHint_ne_invalidPortMsg (s : String) :
    helpHint ≠ invalidPortMsg s := by
  intro h
  have h2 : helpHint.data.head? = (invalidPortMsg s).data.head? :=
    congrArg (fun l => List.head? l) (congrArg String.data h)
  have hT : helpHint.data.head? = some 'T' := rfl
  have hp : (invalidPortMsg s).data.head? = some 'p' := rfl
  rw [hT, hp] at h2
  exact absurd h2 (by decide)

/-- Every error of the option loop is the unknown-option usage hint,
the invalid-type message, or an invalid-port message. -/
theorem scanOpts_error_classify :
    ∀ (args : List Arg) (p : Param) (msgs : List String),
      scanOpts args p = Except.error msgs →
      msgs = [helpHint] ∨ msgs = [invalidTypeMsg] ∨
        ∃ s, msgs = [invalidPortMsg s] := by
  intro args
  induction args with
  | nil =>
      intro p msgs h
      simp [scanOpts] at h
  | cons a rest ih =>
      intro p msgs h
      cases a with
      | unknownOpt =>
          replace h : (Except.error [helpHint] :
              Except (List String) (Param × List Arg)) = Except.error msgs := h
          injection h with h2
          exact Or.inl h2.symm
      | optVerbose => exact ih _ _ h
      | optCommand s => exact ih _ _ h
      | optFile s =>
          replace h : (if s = "-" then scanOpts rest p
              else scanOpts rest
                { p with filename := s, use_stdin := false }) =
              Except.error msgs := h
          split_ifs at h <;> exact ih _ _ h
      | optType s =>
          replace h :
              (if s = "XML" then scanOpts rest { p with fmt := Format.xml }
               else if s = "TEXT" then
                 scanOpts rest { p with fmt := Format.text }
               else if s = "BYTEA" then
                 scanOpts rest { p with fmt := Format.bytea }
               else Except.error [invalidTypeMsg]) = Except.error msgs := h
          split_ifs at h
          · exact ih _ _ h
          · exact ih _ _ h
          · exact ih _ _ h
          · injection h with h2
            exact Or.inr (Or.inl h2.symm)
      | optEncoding s => exact ih _ _ h
      | optUser s => exact ih _ _ h
      | optNoPassword => exact ih _ _ h
      | optForcePassword => exact ih _ _ h
      | optPort s =>
          replace h :
              (if wrapInt32 (strtol10 s) < 1 ∨
                  wrapInt32 (strtol10 s) > 65535 then
                 Except.error [invalidPortMsg s]
               else scanOpts rest { p with pg_port := some s }) =
              Except.error msgs := h
          split_ifs at h
          · injection h with h2
            exact Or.inr (Or.inr ⟨s, h2.symm⟩)
          · exact ih _ _ h
      | optHost s => exact ih _ _ h
      | positional s =>
          replace h : (Except.ok (p, Arg.positional s :: rest) :
              Except (List String) (Param × List Arg)) = Except.error msgs := h
          simp at h

/-- C8 (amended): every configuration error — missing command, missing
database name, invalid format keyword, invalid port (after the source's
long-to-int truncation of the parsed value) — is reported before any
connection attempt and exits at once with code 1.  Every such error
prints one of five message forms; the missing-command and
missing-database forms carry the usage hint, while an invalid `-t`
keyword and an out-of-range `-p` value produce exactly the invalid-type
and invalid-port messages, neither of which contains the hint. -/
theorem C8_config_errors :
    (∀ (args : List Arg) (w : World) (st0 : PwState) (msgs : List String),
      processArgs args = Except.error msgs →
      mainRun args w st0 = ⟨1, [], msgs, st0⟩) ∧
    (∀ (args : List Arg) (p : Param) (rest : List Arg),
      scanOpts args defaultParam = Except.ok (p, rest) → p.command = none →
      processArgs args = Except.error [missingCommandMsg, helpHint]) ∧
    (∀ (args : List Arg) (p : Param) (rest : List Arg) (c : String),
      scanOpts args defaultParam = Except.ok (p, rest) →
      p.command = some c → (∀ d, rest ≠ [Arg.positional d]) →
      processArgs args = Except.error [missingDatabaseMsg, helpHint]) ∧
    (∀ (args : List Arg) (msgs : List String),
      processArgs args = Except.error msgs →
      msgs = [missingCommandMsg, helpHint] ∨
      msgs = [missingDatabaseMsg, helpHint] ∨
      msgs = [helpHint] ∨ msgs = [invalidTypeMsg] ∨
      ∃ s, msgs = [invalidPortMsg s]) ∧
    (helpHint ∉ [invalidTypeMsg] ∧
      ∀ s : String, helpHint ∉ [invalidPortMsg s]) ∧
    (∀ (s : String) (p : Param) (rest : List Arg),
      s ≠ "XML" → s ≠ "TEXT" → s ≠ "BYTEA" →
      scanOpts (Arg.optType s :: rest) p =
        Except.error [invalidTypeMsg]) ∧
    (∀ (s : String) (p : Param) (rest : List Arg),
      wrapInt32 (strtol10 s) < 1 ∨ wrapInt32 (strtol10 s) > 65535 →
      scanOpts (Arg.optPort s :: rest) p =
        Except.error [invalidPortMsg s]) ∧
    (∀ (args : List Arg) (msgs : List String),
      scanOpts args defaultParam = Except.error msgs →
      processArgs args = Except.error msgs) := by
  refine ⟨?_, ?_, ?_, ?_, ⟨by decide, ?_⟩, ?_, ?_, ?_⟩
  · intro args w st0 msgs h
    unfold mainRun
    rw [h]
  · intro args p rest hscan hcmd
    simp [processArgs, hscan, hcmd]
  · intro args p rest c hscan hcmd hne
    rcases rest with _ | ⟨a, t⟩
    · simp [processArgs, hscan, hcmd]
    · rcases t with _ | ⟨b, t2⟩
      · cases a <;> first
          | exact absurd rfl (hne _)
          | simp [processArgs, hscan, hcmd]
      · cases a <;> simp [processArgs, hscan, hcmd]
  · intro args msgs h
    unfold processArgs at h
    rcases hsc : scanOpts args defaultParam with emsgs | pr
    · rw [hsc] at h
      replace h : (Except.error emsgs :
          Except (List String) MainConfig) = Except.error msgs := h
      injection h with h2
      subst h2
      rcases scanOpts_error_classify args defaultParam emsgs hsc with
        h | h | ⟨s, h⟩
      · exact Or.inr (Or.inr (Or.inl h))
      · exact Or.inr (Or.inr (Or.inr (Or.inl h)))
      · exact Or.inr (Or.inr (Or.inr (Or.inr ⟨s, h⟩)))
    · rcases pr with ⟨p, rest⟩
      rw [hsc] at h
      replace h :
          (match p.command with
           | none => Except.error [missingCommandMsg, helpHint]
           | some _ =>
             match rest with
             | [Arg.positional db] => Except.ok (⟨p, db⟩ : MainConfig)
             | _ => Except.error [missingDatabaseMsg, helpHint]) =
          Except.error msgs := h
      rcases hcmd : p.command with _ | c
      · rw [hcmd] at h
        injection h with h2
        exact Or.inl h2.symm
      · rw [hcmd] at h
        rcases rest with _ | ⟨a, t⟩
        · replace h : (Except.error [missingDatabaseMsg, helpHint] :
              Except (List String) MainConfig) = Except.error msgs := h
          injection h with h2
          exact Or.inr (Or.inl h2.symm)
        · rcases t with _ | ⟨b, t2⟩
          · cases a <;> first
              | (replace h : (Except.ok (⟨p, _⟩ : MainConfig)) =
                    Except.error msgs := h
                 simp at h)
              | (replace h :
                    (Except.error [missingDatabaseMsg, helpHint] :
                      Except (List String) MainConfig) =
                    Except.error msgs := h
                 injection h with h2
                 exact Or.inr (Or.inl h2.symm))
          · cases a <;>
              (replace h :
                  (Except.error [missingDatabaseMsg, helpHint] :
                    Except (List String) MainConfig) =
                  Except.error msgs := h
               injection h with h2
               exact Or.inr (Or.inl h2.symm))
  · intro s hmem
    rw [List.mem_singleton] at hmem
    exact absurd hmem (helpHint_ne_invalidPortMsg s)
  · intro s p rest h1 h2 h3
    simp [scanOpts, h1, h2, h3]
  · intro s p rest hbad
    replace hbad :
        (if wrapInt32 (strtol10 s) < 1 ∨ wrapInt32 (strtol10 s) > 65535 then
           (Except.error [invalidPortMsg s] :
             Except (List String) (Param × List Arg))
         else scanOpts rest { p with pg_port := some s }) =
        Except.error [invalidPortMsg s] := if_pos hbad
    exact hbad
  · intro args msgs h
    simp [processArgs, h]

/-- C8 counterexample: an invalid `-t JSON` keyword exits with code 1
before any connection attempt, but its error output carries no usage
hint, contradicting "a usage hint" for every configuration error. -/
theorem C8_config_errors_counterexample :
    processArgs c8args = Except.error [invalidTypeMsg] ∧
    ([invalidTypeMsg].contains helpHint) = false ∧
    (mainRun c8args okWorld pw0).rc = 1 ∧
    (mainRun c8args okWorld pw0).trace = [] :=
  ⟨rfl, by decide, by decide, by decide⟩

/-- C8 witness: `-p 70000` exits with code 1, no pipeline events, the
invalid-port message and no usage hint; a missing `-c` exits with code
1 and the usage hint. -/
theorem C8_config_errors_witness :
    mainRun [Arg.optPort "70000", Arg.optCommand "INSERT",
        Arg.positional "db"] okWorld pw0 =
      ⟨1, [], [invalidPortMsg "70000"], pw0⟩ ∧
    helpHint ∉ [invalidPortMsg "70000"] ∧
    mainRun [Arg.positional "db"] okWorld pw0 =
      ⟨1, [], [missingCommandMsg, helpHint], pw0⟩ := by
  obtain ⟨hA, _, _, _, hE, _, hG, hH⟩ := C8_config_errors
  have hscan := hG "70000" defaultParam
    [Arg.optCommand "INSERT", Arg.positional "db"] (by decide)
  have hproc := hH [Arg.optPort "70000", Arg.optCommand "INSERT",
    Arg.positional "db"] [invalidPortMsg "70000"] hscan
  exact ⟨hA _ okWorld pw0 _ hproc, hE.2 "70000",
    hA [Arg.positional "db"] okWorld pw0 [missingCommandMsg, helpHint] rfl⟩
